import Mathlib

/-!
Shallow embedding of the bounded-concurrency API orchestration layer of the
repository (src/collector.py, src/analyzer.py, src/config.py).

Python dictionaries with string keys are embedded as association lists
(PyDict) with first-match lookup; records produced by the code never hold
duplicate keys, and first-match lookup agrees with Python dict lookup on
such values.  Remote services (the search API and the analysis API) are
embedded as oracle functions supplied as parameters; an oracle outcome of
the form Except.error models the Python call raising an exception whose
message is the carried string.  The while-loop of search_youtube_query is
embedded with an explicit fuel parameter; fuel exhaustion models a run
that has not yet terminated and is reported as Option.none at the function
boundary.  The two thread pools are embedded sequentially: the collection
pool completes its futures in submission order (a legal completion order,
and the claims under study are order-insensitive), and the analysis pool
is configured with MAX_WORKERS_ANALYSIS = 1 in config.py, which
serializes the calls; elapsed time is accounted as the total of the
time.sleep calls performed by the thread that runs run_analysis_pipeline.
-/

set_option autoImplicit false

namespace Repo

/-- A Python dict with string keys and values, as an association list. -/
abbrev PyDict := List (String × String)

/-- Python dict lookup: first entry with the key (dicts built by the code
have no duplicate keys, so first-match equals Python lookup). -/
def dget : PyDict → String → Option String
  | [], _ => none
  | p :: rest, k => if p.1 = k then some p.2 else dget rest k

/-- Embedding of the Python merge expression of analyze_single_video,
final_record = the double-splat of video_data then ai_result: keys of
video_data keep their position, with the value overridden by ai_result on
collision, and keys occurring only in ai_result are appended in order. -/
def dictMerge (v a : PyDict) : PyDict :=
  v.map (fun p => (p.1, (dget a p.1).getD p.2)) ++ a.filter (fun p => (dget v p.1).isNone)

/-- Character-list version of the leading-match test used by strContains. -/
def leadMatch : List Char → List Char → Bool
  | [], _ => true
  | _ :: _, [] => false
  | a :: as, b :: bs => a == b && leadMatch as bs

/-- Whether the second character list occurs contiguously in the first. -/
def hasRun (sub : List Char) : List Char → Bool
  | [] => leadMatch sub []
  | c :: rest => leadMatch sub (c :: rest) || hasRun sub rest

/-- Embedding of the Python substring test, sub in s. -/
def strContains (s sub : String) : Bool :=
  hasRun sub.data s.data

/- ### config.py -/

/-- config.SEARCH_QUERIES. -/
def SEARCH_QUERIES : List String :=
  ["Charlie Kirk Brainwashed Tour debate",
   "Charlie Kirk Prove Me Wrong",
   "Charlie Kirk campus argument",
   "Charlie Kirk Q&A session",
   "Charlie Kirk assassination aftermath"]

/-- config.MAX_VIDEOS_PER_QUERY. -/
def MAX_VIDEOS_PER_QUERY : Nat := 1

/-- config.MAX_WORKERS_ANALYSIS: the analysis pool has a single worker,
which justifies the sequential embedding of run_analysis_pipeline. -/
def MAX_WORKERS_ANALYSIS : Nat := 1

/-- config.DELAY_SECONDS. -/
def DELAY_SECONDS : Nat := 10

/- ### collector.py -/

/-- One item of a search API response, as read by search_youtube_query
(fields id.videoId, snippet.title, snippet.publishedAt). -/
structure RawItem where
  videoId : String
  title : String
  publishedAt : String
deriving DecidableEq

/-- One page of a search API response: the item list and the optional
nextPageToken. -/
structure SearchResponse where
  items : List RawItem
  nextPageToken : Option String
deriving DecidableEq

/-- A search API behavior for one query: from the page token passed and the
maxResults of the request to the outcome of request.execute, where an
error models a raised exception. -/
abbrev SearchApi := Option String → Nat → Except String SearchResponse

/-- The video_data dict built for one response item inside the pagination
loop of search_youtube_query. -/
def mkVideoData (item : RawItem) : PyDict :=
  [("video_id", item.videoId),
   ("url", "https://www.youtube.com/watch?v=" ++ item.videoId),
   ("title", item.title),
   ("publish_date", item.publishedAt)]

/-- Outcome of the pagination while-loop of search_youtube_query, together
with the ghost log of the maxResults value of every request issued:
normal exit, an exception escaping the loop body, or fuel exhaustion
(the loop still running). -/
inductive LoopResult where
  | done (videos : List PyDict) (requests : List Nat)
  | raised (e : String) (requests : List Nat)
  | fuelOut (requests : List Nat)
deriving DecidableEq

/-- The pagination while-loop of search_youtube_query: while fewer than
max_results videos are accumulated, request min 50 (max_results - count)
items with the current page token, append the mapped items, and stop when
the response carries no nextPageToken. -/
def searchLoop (api : SearchApi) (max_results : Nat) :
    Nat → List PyDict → Option String → List Nat → LoopResult
  | fuel, videos, tok, reqs =>
    if videos.length < max_results then
      match fuel with
      | 0 => .fuelOut reqs
      | fuel' + 1 =>
        let fetch_count := min 50 (max_results - videos.length)
        match api tok fetch_count with
        | .error e => .raised e (reqs ++ [fetch_count])
        | .ok resp =>
          let videos' := videos ++ resp.items.map mkVideoData
          match resp.nextPageToken with
          | none => .done videos' (reqs ++ [fetch_count])
          | some t => searchLoop api max_results fuel' videos' (some t) (reqs ++ [fetch_count])
    else .done videos reqs

/-- A Python value that is either a list of dicts or a set of dicts: the
return type actually realized by search_youtube_query, which returns a
list on success and the empty set on a caught exception. -/
inductive PyValue where
  | pylist (l : List PyDict)
  | pyset (l : List PyDict)
deriving DecidableEq

/-- Iterating over a PyValue, as the for-loop of run_collection_pipeline
does with each future result. -/
def PyValue.iter : PyValue → List PyDict
  | .pylist l => l
  | .pyset l => l

/-- search_youtube_query: runs the pagination loop under the try block; a
raised exception is caught and the function returns the empty set (the
literal set() of the source); none models a run whose loop has not
terminated within the given fuel. -/
def search_youtube_query (api : SearchApi) (max_results fuel : Nat) : Option PyValue :=
  match searchLoop api max_results fuel [] none [] with
  | .done videos _ => some (.pylist videos)
  | .raised _ _ => some (.pyset [])
  | .fuelOut _ => none

/-- One step of the deduplication of run_collection_pipeline: insert the
record keyed by its video_id unless the key is already present. -/
def dedupStep (m : List (Option String × PyDict)) (v : PyDict) :
    List (Option String × PyDict) :=
  if m.any (fun p => p.1 == dget v "video_id") then m
  else m ++ [(dget v "video_id", v)]

/-- The all_videos_map of run_collection_pipeline after inserting every
record of the stream, in insertion order (Python dicts preserve it). -/
def collectDedup (stream : List PyDict) : List (Option String × PyDict) :=
  stream.foldl dedupStep []

/-- The concatenated stream of records the futures of
run_collection_pipeline deliver, in the completion order of the
sequential embedding; a query whose search has not terminated
contributes nothing (the pipeline itself then reports none). -/
def collectStream (api : String → SearchApi) (queries : List String)
    (max_per_query fuel : Nat) : List PyDict :=
  (queries.map (fun q =>
    match search_youtube_query (api q) max_per_query fuel with
    | some v => v.iter
    | none => [])).flatten

/-- run_collection_pipeline: one search task per query, results merged
into all_videos_map keyed by video_id with first-seen wins, returning the
list of values; none when some query has not terminated within fuel. -/
def run_collection_pipeline (api : String → SearchApi) (queries : List String)
    (max_per_query fuel : Nat) : Option (List PyDict) :=
  if (queries.map (fun q => search_youtube_query (api q) max_per_query fuel)).all
      (fun r => r.isSome) then
    some ((collectDedup (collectStream api queries max_per_query fuel)).map (fun p => p.2))
  else none

/- ### analyzer.py -/

/-- analyze_single_video, max_retries. -/
def max_retries : Nat := 3

/-- analyze_single_video, base_wait_time (seconds to wait on a limit). -/
def base_wait_time : Nat := 30

/-- The rate-limit test of analyze_single_video on the text of a caught
exception: the substring 429 or RESOURCE_EXHAUSTED occurs in it. -/
def isRateLimitMsg (msg : String) : Bool :=
  strContains msg "429" || strContains msg "RESOURCE_EXHAUSTED"

/-- An analysis API behavior for one video: from the attempt index to the
outcome of the generate_content call followed by json.loads, both inside
the try block: ok carries the parsed ai_result mapping, error carries the
text of the raised exception. -/
abbrev AnalyzeOracle := Nat → Except String PyDict

/-- Outcome of one iteration of the retry loop body up to the merge: the
title lookup of the prompt text raises a KeyError when the key is absent
(caught by the except like any other exception), otherwise the remote
call and the parse behave as the oracle says. -/
def attemptOutcome (oracle : AnalyzeOracle) (video_data : PyDict) (attempt : Nat) :
    Except String PyDict :=
  match dget video_data "title" with
  | none => .error "KeyError: title"
  | some _ => oracle attempt

/-- What one run of the retry loop of analyze_single_video produced: the
returned value (none both for the immediate fatal return and for falling
off the loop), the ghost log of the sleep durations performed, and how
many attempts called the remote service. -/
structure AnalyzeRun where
  result : Option PyDict
  sleeps : List Nat
  attemptsMade : Nat
deriving DecidableEq

/-- The for-attempt-in-range loop of analyze_single_video: on success
return the merge of video_data with ai_result; on a rate-limit message
sleep base_wait_time * (attempt + 1) and retry; on any other message
return None at once; falling off the loop returns None. -/
def analyzeAttempts (oracle : AnalyzeOracle) (video_data : PyDict) :
    Nat → Nat → List Nat → AnalyzeRun
  | 0, attempt, sleeps => ⟨none, sleeps, attempt⟩
  | remaining + 1, attempt, sleeps =>
    match attemptOutcome oracle video_data attempt with
    | .ok ai_result => ⟨some (dictMerge video_data ai_result), sleeps, attempt + 1⟩
    | .error msg =>
      if isRateLimitMsg msg then
        analyzeAttempts oracle video_data remaining (attempt + 1)
          (sleeps ++ [base_wait_time * (attempt + 1)])
      else ⟨none, sleeps, attempt + 1⟩

/-- analyze_single_video: the url lookup happens before the try block, so
a record without a url key makes the function itself raise (error); with
a url the retry loop runs and the function returns normally. -/
def analyze_single_video (oracle : AnalyzeOracle) (video_data : PyDict) :
    Except String AnalyzeRun :=
  match dget video_data "url" with
  | none => .error "KeyError: url"
  | some _ => .ok (analyzeAttempts oracle video_data max_retries 0 [])

/-- The as_completed loop of run_analysis_pipeline in the sequential
single-worker embedding: take each future result in order (re-raising an
exception of the task, which aborts the pipeline), append it to results
when it is truthy (a non-None, non-empty dict), and sleep DELAY_SECONDS
after every completed future.  The second component of the result is the
total time this thread spent in time.sleep. -/
def analysisGo (delay : Nat) (oracle : Nat → AnalyzeOracle) :
    Nat → List PyDict → List PyDict → Nat → Except String (List PyDict × Nat)
  | _, [], results, slept => .ok (results, slept)
  | i, video :: rest, results, slept =>
    match analyze_single_video (oracle i) video with
    | .error e => .error e
    | .ok run =>
      match run.result with
      | some data =>
        analysisGo delay oracle (i + 1) rest
          (if data.isEmpty then results else results ++ [data]) (slept + delay)
      | none => analysisGo delay oracle (i + 1) rest results (slept + delay)

/-- run_analysis_pipeline over a list of videos, with the oracle indexed
by the position of the video in the input list. -/
def run_analysis_pipeline (delay : Nat) (oracle : Nat → AnalyzeOracle)
    (video_list : List PyDict) : Except String (List PyDict × Nat) :=
  analysisGo delay oracle 0 video_list [] 0

/-- The output the claims describe for run_analysis_pipeline: exactly the
records whose per-record analysis returned a value, in completion order. -/
def analysisSuccesses (oracle : Nat → AnalyzeOracle) : Nat → List PyDict → List PyDict
  | _, [] => []
  | i, video :: rest =>
    match analyze_single_video (oracle i) video with
    | .ok run =>
      match run.result with
      | some data => data :: analysisSuccesses oracle (i + 1) rest
      | none => analysisSuccesses oracle (i + 1) rest
    | .error _ => analysisSuccesses oracle (i + 1) rest

/- ### Concrete scenario data used by the closed parts of the claims -/

/-- Raw item with id idA. -/
def itemA : RawItem := ⟨"idA", "Title A", "2025-01-01T00:00:00Z"⟩

/-- Raw item with id idB. -/
def itemB : RawItem := ⟨"idB", "Title B", "2025-01-02T00:00:00Z"⟩

/-- Raw item with id idC. -/
def itemC : RawItem := ⟨"idC", "Title C", "2025-01-03T00:00:00Z"⟩

/-- Raw item with the shared id idS, as produced by the first query. -/
def itemS1 : RawItem := ⟨"idS", "Shared upload", "2025-01-04T00:00:00Z"⟩

/-- Raw item with the shared id idS again, but with a different title, as
produced by the second query: keeping the first-seen record and not
merging makes the kept title the one of itemS1. -/
def itemS2 : RawItem := ⟨"idS", "Shared upload reposted", "2025-01-05T00:00:00Z"⟩

/-- Search API for the overlap scenario: the query q1 yields itemA and
itemS1 on a single page, the query q2 yields itemB and itemS2. -/
def overlapApi : String → SearchApi := fun q _tok _c =>
  if q = "q1" then .ok ⟨[itemA, itemS1], none⟩
  else .ok ⟨[itemB, itemS2], none⟩

/-- Search API for the one-failing-query scenario: the query bad raises on
every page request, every other query yields one item. -/
def oneBadApi : String → SearchApi := fun q _tok _c =>
  if q = "bad" then .error "HttpError 500 backend unavailable"
  else if q = "q1" then .ok ⟨[itemA], none⟩
  else .ok ⟨[itemB], none⟩

/-- A search API that always raises. -/
def alwaysRaiseApi : SearchApi := fun _tok _c =>
  .error "HttpError 403 quota exceeded"

/-- A search API honoring the requested page size: pages of 50 items with
id idA and a continuation token forever; used to witness the page-size
bound. -/
def fullPageApi : SearchApi := fun _tok c =>
  .ok ⟨(List.range c).map (fun _ => itemA), some "tok"⟩

/-- An analysis oracle that raises a rate-limit signal on every attempt. -/
def throttleOracle : AnalyzeOracle := fun _ =>
  .error "429 RESOURCE_EXHAUSTED: quota exceeded for generate_content"

/-- An analysis oracle that raises a fatal signal on every attempt. -/
def fatalOracle : AnalyzeOracle := fun _ =>
  .error "404 the requested video was not found"

/-- A record as the collector emits it, for itemA. -/
def recA : PyDict := mkVideoData itemA

/-- A record as the collector emits it, for itemB. -/
def recB : PyDict := mkVideoData itemB

/-- A record as the collector emits it, for itemC. -/
def recC : PyDict := mkVideoData itemC

/-- The analysis result the oracle of the three-record scenario returns
for successful calls. -/
def aiTopic : PyDict := [("topic", "campus debate")]

/-- Oracle of the three-record scenario: the middle video fails fatally on
its first attempt, the other two succeed at once. -/
def threeRecOracle : Nat → AnalyzeOracle := fun i _attempt =>
  if i = 1 then .error "404 the requested video was not found"
  else .ok aiTopic

/-- Analysis result that rewrites the video_id field, for the identity
overwrite scenario. -/
def aiOverwriteId : PyDict := [("video_id", "idZ"), ("topic", "campus debate")]

/-- Oracle that returns aiOverwriteId for every video and attempt. -/
def overwriteIdOracle : Nat → AnalyzeOracle := fun _i _attempt => .ok aiOverwriteId

/-- The source record of the merge example of the spec. -/
def mergeExSrc : PyDict := [("id", "x"), ("title", "T"), ("foo", "bar")]

/-- The analysis mapping of the merge example of the spec. -/
def mergeExAi : PyDict := [("topic", "Y"), ("foo", "baz")]

/-- A search API that honors the requested page size and serves one item
with no continuation token. -/
def honestOneApi : SearchApi := fun _tok c =>
  .ok ⟨if c = 0 then [] else [itemA], none⟩

/-- A search API that serves a first page and raises on the continuation
request, so a pagination run fails with a nonempty partial list. -/
def secondPageRaiseApi : SearchApi := fun tok _c =>
  match tok with
  | none => .ok ⟨[itemA], some "page2"⟩
  | some _ => .error "HttpError 500 backend unavailable"

/- ### Helper lemmas about dictionary lookup and merge -/

theorem dget_append (xs ys : PyDict) (k : String) :
    dget (xs ++ ys) k = (dget xs k).or (dget ys k) := by
  induction xs with
  | nil => simp [dget]
  | cons p rest ih =>
    by_cases h : p.1 = k
    · simp [dget, h]
    · simp [dget, h, ih]

theorem dget_map_override (v a : PyDict) (k : String) :
    dget (v.map (fun p => (p.1, (dget a p.1).getD p.2))) k
      = (dget v k).map (fun val => (dget a k).getD val) := by
  induction v with
  | nil => simp [dget]
  | cons p rest ih =>
    by_cases h : p.1 = k
    · simp [dget, h]
    · simp [dget, h, ih]

theorem dget_filter_absent (v a : PyDict) (k : String) :
    dget (a.filter (fun p => (dget v p.1).isNone)) k
      = if dget v k = none then dget a k else none := by
  induction a with
  | nil => simp [dget]
  | cons p rest ih =>
    by_cases h : p.1 = k
    · subst h
      cases hv : dget v p.1 with
      | none => simp [List.filter, hv, dget, ih]
      | some x => simp [List.filter, hv, dget, ih]
    · cases hv : dget v p.1 with
      | none => simp [List.filter, hv, dget, h, ih]
      | some x => simp [List.filter, hv, dget, h, ih]

theorem dget_dictMerge_of_none (v a : PyDict) (k : String) (h : dget a k = none) :
    dget (dictMerge v a) k = dget v k := by
  rw [dictMerge, dget_append, dget_map_override, dget_filter_absent, h]
  cases hv : dget v k <;> simp [hv]

theorem dget_dictMerge_of_some (v a : PyDict) (k : String) (x : String)
    (h : dget a k = some x) : dget (dictMerge v a) k = some x := by
  rw [dictMerge, dget_append, dget_map_override, dget_filter_absent, h]
  cases hv : dget v k <;> simp [hv]

theorem dget_ne_nil {v : PyDict} {k u : String} (h : dget v k = some u) : v ≠ [] := by
  intro hnil
  subst hnil
  simp [dget] at h

theorem dictMerge_ne_nil {v : PyDict} (a : PyDict) (h : v ≠ []) :
    dictMerge v a ≠ [] := by
  cases v with
  | nil => exact absurd rfl h
  | cons p rest => simp [dictMerge]

/- ### Claim theorems -/

/-- C6: for every source record and every parsed analysis mapping, the
merged record of analyze_single_video preserves each original field whose
key does not occur in the analysis mapping, the analysis value wins on
every key collision, and on the concrete example of the spec the merge of
the record id x, title T, foo bar with the analysis topic Y, foo baz
yields topic Y, foo baz and title T. -/
theorem merge_preserves_and_overrides :
    (∀ v a : PyDict, ∀ k : String, dget a k = none →
       dget (dictMerge v a) k = dget v k) ∧
    (∀ v a : PyDict, ∀ k x : String, dget a k = some x →
       dget (dictMerge v a) k = some x) ∧
    dget (dictMerge mergeExSrc mergeExAi) "topic" = some "Y" ∧
    dget (dictMerge mergeExSrc mergeExAi) "foo" = some "baz" ∧
    dget (dictMerge mergeExSrc mergeExAi) "title" = some "T" := by
  refine ⟨dget_dictMerge_of_none, dget_dictMerge_of_some, ?_, ?_, ?_⟩ <;> decide

/-- Witness for C6 at a concrete input: the title field of the merge
example is preserved and the colliding foo field takes the analysis
value. -/
theorem merge_preserves_and_overrides_witness :
    dget (dictMerge mergeExSrc mergeExAi) "title" = some "T" ∧
    dget (dictMerge mergeExSrc mergeExAi) "foo" = some "baz" :=
  ⟨merge_preserves_and_overrides.1 mergeExSrc mergeExAi "title" (by decide),
   merge_preserves_and_overrides.2.1 mergeExSrc mergeExAi "foo" "baz" (by decide)⟩

/- ### Helper lemmas about the retry loop and the analysis pipeline -/

theorem analyzeAttempts_result_merge (oracle : AnalyzeOracle) (v : PyDict) :
    ∀ (r attempt : Nat) (sleeps : List Nat) (d : PyDict),
    (analyzeAttempts oracle v r attempt sleeps).result = some d →
    ∃ ai, d = dictMerge v ai := by
  intro r
  induction r with
  | zero =>
    intro attempt sleeps d h
    simp [analyzeAttempts] at h
  | succ r ih =>
    intro attempt sleeps d h
    cases ho : attemptOutcome oracle v attempt with
    | ok ai =>
      simp [analyzeAttempts, ho] at h
      exact ⟨ai, h.symm⟩
    | error msg =>
      by_cases hr : isRateLimitMsg msg
      · simp [analyzeAttempts, ho, hr] at h
        exact ih _ _ _ h
      · simp [analyzeAttempts, ho, hr] at h

/-- C3: with a throttling signal on every attempt, analyze_single_video
makes exactly max_retries = 3 attempts, sleeps base times 1, 2 and 3
(30, 60 and 90 seconds) around them, and then returns None normally
instead of raising. -/
theorem throttling_retries_three_then_none :
    ∀ (oracle : AnalyzeOracle) (video_data : PyDict),
    (dget video_data "url").isSome = true →
    (dget video_data "title").isSome = true →
    (∀ i, i < max_retries → ∃ m, oracle i = .error m ∧ isRateLimitMsg m = true) →
    analyze_single_video oracle video_data =
      .ok ⟨none, [base_wait_time * 1, base_wait_time * 2, base_wait_time * 3],
           max_retries⟩ := by
  intro oracle v hu ht hth
  obtain ⟨u, hu⟩ := Option.isSome_iff_exists.mp hu
  obtain ⟨t, ht⟩ := Option.isSome_iff_exists.mp ht
  obtain ⟨m0, hm0, hr0⟩ := hth 0 (by decide)
  obtain ⟨m1, hm1, hr1⟩ := hth 1 (by decide)
  obtain ⟨m2, hm2, hr2⟩ := hth 2 (by decide)
  simp [analyze_single_video, hu, max_retries, analyzeAttempts, attemptOutcome,
    ht, hm0, hm1, hm2, hr0, hr1, hr2, base_wait_time]

/-- Witness for C3: an oracle raising a 429 RESOURCE_EXHAUSTED signal on
every attempt makes analyze_single_video return None after three
attempts with sleeps of 30, 60 and 90 seconds. -/
theorem throttling_retries_three_then_none_witness :
    analyze_single_video throttleOracle recA = .ok ⟨none, [30, 60, 90], 3⟩ :=
  throttling_retries_three_then_none throttleOracle recA (by decide) (by decide)
    (fun i _ => ⟨"429 RESOURCE_EXHAUSTED: quota exceeded for generate_content",
      rfl, by decide⟩)

/-- C4: a non-throttling signal at attempt k makes analyze_single_video
return None right away: only the k + 1 attempts already made are counted,
no further sleep is performed, and no exception escapes. -/
theorem fatal_abandons_immediately :
    ∀ (oracle : AnalyzeOracle) (video_data : PyDict) (k : Nat),
    (dget video_data "url").isSome = true →
    (dget video_data "title").isSome = true →
    k < max_retries →
    (∀ i, i < k → ∃ m, oracle i = .error m ∧ isRateLimitMsg m = true) →
    (∃ m, oracle k = .error m ∧ isRateLimitMsg m = false) →
    analyze_single_video oracle video_data =
      .ok ⟨none, (List.range k).map (fun i => base_wait_time * (i + 1)), k + 1⟩ := by
  intro oracle v k hu ht hk hth hfat
  obtain ⟨u, hu⟩ := Option.isSome_iff_exists.mp hu
  obtain ⟨t, ht⟩ := Option.isSome_iff_exists.mp ht
  obtain ⟨m, hm, hrm⟩ := hfat
  simp only [max_retries] at hk
  interval_cases k
  · simp [analyze_single_video, hu, max_retries, analyzeAttempts, attemptOutcome,
      ht, hm, hrm]
  · obtain ⟨m0, hm0, hr0⟩ := hth 0 (by decide)
    simp [analyze_single_video, hu, max_retries, analyzeAttempts, attemptOutcome,
      ht, hm, hrm, hm0, hr0]
    decide
  · obtain ⟨m0, hm0, hr0⟩ := hth 0 (by decide)
    obtain ⟨m1, hm1, hr1⟩ := hth 1 (by decide)
    simp [analyze_single_video, hu, max_retries, analyzeAttempts, attemptOutcome,
      ht, hm, hrm, hm0, hr0, hm1, hr1]
    decide

/-- Witness for C4: a 404 signal on the first attempt yields None after
one single attempt with no sleep. -/
theorem fatal_abandons_immediately_witness :
    analyze_single_video fatalOracle recA = .ok ⟨none, [], 1⟩ :=
  fatal_abandons_immediately fatalOracle recA 0 (by decide) (by decide)
    (by decide) (fun i h => absurd h (by omega))
    ⟨"404 the requested video was not found", rfl, by decide⟩

theorem isEmpty_eq_false_of_ne_nil {d : PyDict} (h : d ≠ []) : d.isEmpty = false := by
  cases d with
  | nil => exact absurd rfl h
  | cons p rest => rfl

theorem analysisGo_ok (delay : Nat) (oracle : Nat → AnalyzeOracle) :
    ∀ (vl : List PyDict) (i : Nat) (acc : List PyDict) (s : Nat),
    (∀ v ∈ vl, (dget v "url").isSome = true) →
    analysisGo delay oracle i vl acc s =
      .ok (acc ++ analysisSuccesses oracle i vl, s + vl.length * delay) := by
  intro vl
  induction vl with
  | nil =>
    intro i acc s _
    simp [analysisGo, analysisSuccesses]
  | cons v rest ih =>
    intro i acc s hall
    have hv := hall v (by simp)
    obtain ⟨u, hu⟩ := Option.isSome_iff_exists.mp hv
    have hrest : ∀ w ∈ rest, (dget w "url").isSome = true :=
      fun w hw => hall w (List.mem_cons_of_mem v hw)
    cases hres : (analyzeAttempts (oracle i) v max_retries 0 []).result with
    | none =>
      rw [show analysisGo delay oracle i (v :: rest) acc s
            = analysisGo delay oracle (i + 1) rest acc (s + delay) by
          simp [analysisGo, analyze_single_video, hu, hres]]
      rw [ih (i + 1) acc (s + delay) hrest]
      simp [analysisSuccesses, analyze_single_video, hu, hres, List.length_cons]
      ring
    | some d =>
      obtain ⟨ai, hai⟩ := analyzeAttempts_result_merge (oracle i) v max_retries 0 [] d hres
      have hne : d.isEmpty = false := by
        subst hai
        exact isEmpty_eq_false_of_ne_nil (dictMerge_ne_nil ai (dget_ne_nil hu))
      rw [show analysisGo delay oracle i (v :: rest) acc s
            = analysisGo delay oracle (i + 1) rest (acc ++ [d]) (s + delay) by
          simp [analysisGo, analyze_single_video, hu, hres, hne]]
      rw [ih (i + 1) (acc ++ [d]) (s + delay) hrest]
      simp [analysisSuccesses, analyze_single_video, hu, hres, List.length_cons]
      ring

theorem analysisGo_slept (delay : Nat) (oracle : Nat → AnalyzeOracle) :
    ∀ (vl : List PyDict) (i : Nat) (acc : List PyDict) (s : Nat)
      (res : List PyDict) (n : Nat),
    analysisGo delay oracle i vl acc s = .ok (res, n) →
    n = s + vl.length * delay := by
  intro vl
  induction vl with
  | nil =>
    intro i acc s res n h
    simp [analysisGo] at h
    simp [List.length_nil]
    omega
  | cons v rest ih =>
    intro i acc s res n h
    cases hasv : analyze_single_video (oracle i) v with
    | error e =>
      simp [analysisGo, hasv] at h
    | ok run =>
      cases hres : run.result with
      | some d =>
        simp [analysisGo, hasv, hres] at h
        have := ih (i + 1) _ (s + delay) res n h
        simp [List.length_cons, Nat.add_mul, Nat.one_mul]
        omega
      | none =>
        simp [analysisGo, hasv, hres] at h
        have := ih (i + 1) acc (s + delay) res n h
        simp [List.length_cons, Nat.add_mul, Nat.one_mul]
        omega

/-- C7: for an input of genuine video records (each carries a url), the
analysis pipeline returns exactly the records whose per-record analysis
produced a value, silently dropping the rest; on the concrete scenario of
three records of which the middle one fails fatally, exactly two
enriched records come out. -/
theorem analysis_returns_exactly_successes :
    (∀ (delay : Nat) (oracle : Nat → AnalyzeOracle) (vl : List PyDict),
      (∀ v ∈ vl, (dget v "url").isSome = true) →
      run_analysis_pipeline delay oracle vl =
        .ok (analysisSuccesses oracle 0 vl, vl.length * delay)) ∧
    run_analysis_pipeline 10 threeRecOracle [recA, recB, recC] =
      .ok (analysisSuccesses threeRecOracle 0 [recA, recB, recC], 30) ∧
    (analysisSuccesses threeRecOracle 0 [recA, recB, recC]).length = 2 := by
  refine ⟨?_, ?_, ?_⟩
  · intro delay oracle vl hall
    have := analysisGo_ok delay oracle vl 0 [] 0 hall
    simpa [run_analysis_pipeline] using this
  · rfl
  · rfl

/-- Witness for C7 at the three-record scenario. -/
theorem analysis_returns_exactly_successes_witness :
    run_analysis_pipeline 10 threeRecOracle [recA, recB, recC] =
      .ok (analysisSuccesses threeRecOracle 0 [recA, recB, recC], 30) :=
  analysis_returns_exactly_successes.1 10 threeRecOracle [recA, recB, recC]
    (by decide)

/-- C9: whenever the analysis pipeline returns, the thread that ran it
has slept exactly one inter-call delay per input record, so the run takes
at least the number of records times the delay as elapsed time. -/
theorem pacing_floor :
    ∀ (delay : Nat) (oracle : Nat → AnalyzeOracle) (vl : List PyDict)
      (res : List PyDict) (n : Nat),
    run_analysis_pipeline delay oracle vl = .ok (res, n) →
    n = vl.length * delay ∧ vl.length * delay ≤ n := by
  intro delay oracle vl res n h
  have := analysisGo_slept delay oracle vl 0 [] 0 res n h
  omega

/-- Witness for C9: the three-record scenario with delay 10 sleeps a
total of 30 seconds in the dispatching thread. -/
theorem pacing_floor_witness :
    (3 : Nat) * 10 ≤ 30 :=
  (pacing_floor 10 threeRecOracle [recA, recB, recC]
    (analysisSuccesses threeRecOracle 0 [recA, recB, recC]) 30 rfl).2

/-- C10: the merge of analyze_single_video protects no key: the enriched
video_id is guaranteed to agree with the source only when the analysis
mapping has no video_id key; a mapping carrying one rewrites it, and an
input list that is unique by video_id can come out of the analysis
pipeline non-unique. -/
theorem identity_not_protected :
    (∀ v a : PyDict, dget a "video_id" = none →
       dget (dictMerge v a) "video_id" = dget v "video_id") ∧
    (dget aiOverwriteId "video_id" = some "idZ" ∧
     dget recA "video_id" = some "idA" ∧
     dget (dictMerge recA aiOverwriteId) "video_id" = some "idZ") ∧
    (((([recA, recB] : List PyDict)).map (fun v => dget v "video_id")).Nodup ∧
     run_analysis_pipeline 10 overwriteIdOracle [recA, recB] =
       .ok (analysisSuccesses overwriteIdOracle 0 [recA, recB], 20) ∧
     ¬ ((analysisSuccesses overwriteIdOracle 0 [recA, recB]).map
          (fun v => dget v "video_id")).Nodup) := by
  refine ⟨fun v a h => dget_dictMerge_of_none v a "video_id" h, by decide, by decide, rfl, by decide⟩

/-- Witness for C10: the video_id of recA survives a merge with an
analysis mapping that has no video_id key. -/
theorem identity_not_protected_witness :
    dget (dictMerge recA aiTopic) "video_id" = dget recA "video_id" :=
  identity_not_protected.1 recA aiTopic (by decide)

/- ### Helper lemmas about the pagination loop and the deduplication -/

theorem searchLoop_bounds (api : SearchApi) (max_results : Nat)
    (hapi : ∀ (t : Option String) (c : Nat) (r : SearchResponse),
      api t c = .ok r → r.items.length ≤ c) :
    ∀ (fuel : Nat) (videos : List PyDict) (tok : Option String) (reqs : List Nat)
      (v : List PyDict) (rq : List Nat),
    videos.length ≤ max_results →
    (∀ c ∈ reqs, 1 ≤ c ∧ c ≤ 50) →
    searchLoop api max_results fuel videos tok reqs = .done v rq →
    v.length ≤ max_results ∧ (∀ c ∈ rq, 1 ≤ c ∧ c ≤ 50) := by
  intro fuel
  induction fuel with
  | zero =>
    intro videos tok reqs v rq hlen hreqs h
    rw [searchLoop] at h
    split at h
    · simp at h
    · cases h
      exact ⟨hlen, hreqs⟩
  | succ fuel ih =>
    intro videos tok reqs v rq hlen hreqs h
    rw [searchLoop] at h
    split at h
    case isFalse hge =>
      cases h
      exact ⟨hlen, hreqs⟩
    case isTrue hlt =>
      have hfc1 : 1 ≤ min 50 (max_results - videos.length) := by omega
      have hfc50 : min 50 (max_results - videos.length) ≤ 50 := by omega
      have hreqs2 : ∀ c ∈ reqs ++ [min 50 (max_results - videos.length)],
          1 ≤ c ∧ c ≤ 50 := by
        intro c hc
        rcases List.mem_append.mp hc with hc | hc
        · exact hreqs c hc
        · simp at hc
          omega
      cases hresp : api tok (min 50 (max_results - videos.length)) with
      | error e =>
        simp only [hresp] at h
        simp at h
      | ok resp =>
        have hitems := hapi tok (min 50 (max_results - videos.length)) resp hresp
        have hlen2 : (videos ++ resp.items.map mkVideoData).length ≤ max_results := by
          rw [List.length_append, List.length_map]
          omega
        simp only [hresp] at h
        cases htok : resp.nextPageToken with
        | none =>
          simp only [htok] at h
          cases h
          exact ⟨hlen2, hreqs2⟩
        | some t =>
          simp only [htok] at h
          exact ih _ _ _ v rq hlen2 hreqs2 h

theorem collectDedup_inv :
    ∀ (rest pre : List PyDict) (m : List (Option String × PyDict)),
    (m.map (fun p => p.1)).Nodup →
    (∀ p ∈ m, p.1 = dget p.2 "video_id") →
    (∀ p ∈ m, pre.find? (fun w => dget w "video_id" == p.1) = some p.2) →
    (∀ w ∈ pre, m.any (fun p => p.1 == dget w "video_id") = true) →
    ((List.foldl dedupStep m rest).map (fun p => p.1)).Nodup ∧
    (∀ p ∈ List.foldl dedupStep m rest, p.1 = dget p.2 "video_id") ∧
    (∀ p ∈ List.foldl dedupStep m rest,
       (pre ++ rest).find? (fun w => dget w "video_id" == p.1) = some p.2) := by
  intro rest
  induction rest with
  | nil =>
    intro pre m h1 h2 h3 h4
    simp only [List.foldl_nil, List.append_nil]
    exact ⟨h1, h2, h3⟩
  | cons v rest ih =>
    intro pre m h1 h2 h3 h4
    have step : List.foldl dedupStep m (v :: rest)
        = List.foldl dedupStep (dedupStep m v) rest := rfl
    rw [step]
    by_cases hmem : m.any (fun p => p.1 == dget v "video_id") = true
    · have hds : dedupStep m v = m := by
        simp only [dedupStep, if_pos hmem]
      rw [hds]
      have h3' : ∀ p ∈ m,
          (pre ++ [v]).find? (fun w => dget w "video_id" == p.1) = some p.2 := by
        intro p hp
        rw [List.find?_append, h3 p hp]
        rfl
      have h4' : ∀ w ∈ pre ++ [v],
          m.any (fun p => p.1 == dget w "video_id") = true := by
        intro w hw
        rcases List.mem_append.mp hw with hw | hw
        · exact h4 w hw
        · simp at hw
          subst hw
          exact hmem
      have := ih (pre ++ [v]) m h1 h2 h3' h4'
      simpa [List.append_assoc] using this
    · have hds : dedupStep m v = m ++ [(dget v "video_id", v)] := by
        simp only [dedupStep, if_neg hmem]
      rw [hds]
      have hnotin : (dget v "video_id") ∉ m.map (fun p => p.1) := by
        intro hin
        obtain ⟨p, hp, hpe⟩ := List.mem_map.mp hin
        exact hmem (List.any_eq_true.mpr ⟨p, hp, by simp [hpe]⟩)
      have h1' : ((m ++ [(dget v "video_id", v)]).map (fun p => p.1)).Nodup := by
        rw [List.map_append, List.nodup_append]
        refine ⟨h1, by simp, ?_⟩
        intro x hx hx2
        simp at hx2
        subst hx2
        exact hnotin hx
      have h2' : ∀ p ∈ m ++ [(dget v "video_id", v)], p.1 = dget p.2 "video_id" := by
        intro p hp
        rcases List.mem_append.mp hp with hp | hp
        · exact h2 p hp
        · simp at hp
          subst hp
          rfl
      have hprenone :
          pre.find? (fun w => dget w "video_id" == dget v "video_id") = none := by
        rw [List.find?_eq_none]
        intro w hw hbeq
        have heq : dget w "video_id" = dget v "video_id" := by simpa using hbeq
        have h4w := h4 w hw
        rw [heq] at h4w
        exact hmem h4w
      have h3' : ∀ p ∈ m ++ [(dget v "video_id", v)],
          (pre ++ [v]).find? (fun w => dget w "video_id" == p.1) = some p.2 := by
        intro p hp
        rcases List.mem_append.mp hp with hp | hp
        · rw [List.find?_append, h3 p hp]
          rfl
        · simp at hp
          subst hp
          rw [List.find?_append, hprenone]
          simp [List.find?]
      have h4' : ∀ w ∈ pre ++ [v],
          (m ++ [(dget v "video_id", v)]).any (fun p => p.1 == dget w "video_id")
            = true := by
        intro w hw
        rcases List.mem_append.mp hw with hw | hw
        · rw [List.any_append]
          simp [h4 w hw]
        · simp at hw
          subst hw
          simp [List.any_append]
      have := ih (pre ++ [v]) _ h1' h2' h3' h4'
      simpa [List.append_assoc] using this

/-- C1: every record list the collection pipeline returns is unique by
video_id, each returned record is exactly the first record of the result
stream carrying its id (kept whole, later duplicates discarded, not
merged), and the concrete two-query overlap scenario yields exactly
three records with the first-seen shared record kept. -/
theorem collection_unique_and_first_seen :
    (∀ (api : String → SearchApi) (queries : List String) (mpq fuel : Nat)
       (out : List PyDict),
      run_collection_pipeline api queries mpq fuel = some out →
      ((out.map (fun v => dget v "video_id")).Nodup ∧
       ∀ v ∈ out, (collectStream api queries mpq fuel).find?
           (fun w => dget w "video_id" == dget v "video_id") = some v)) ∧
    run_collection_pipeline overlapApi ["q1", "q2"] 2 5 =
      some [mkVideoData itemA, mkVideoData itemS1, mkVideoData itemB] := by
  constructor
  · intro api queries mpq fuel out hout
    rw [run_collection_pipeline] at hout
    split at hout
    · have hout2 :
          (collectDedup (collectStream api queries mpq fuel)).map (fun p => p.2)
            = out := Option.some.inj hout
      obtain ⟨hn, hid, hfs⟩ :=
        collectDedup_inv (collectStream api queries mpq fuel) [] []
          (by simp) (by simp) (by simp) (by simp)
      simp only [List.nil_append] at hfs
      have hcd : collectDedup (collectStream api queries mpq fuel)
          = List.foldl dedupStep [] (collectStream api queries mpq fuel) := rfl
      subst hout2
      rw [hcd]
      constructor
      · rw [List.map_map]
        have hmm :
            (List.foldl dedupStep [] (collectStream api queries mpq fuel)).map
                ((fun v => dget v "video_id") ∘ (fun p => p.2))
              = (List.foldl dedupStep [] (collectStream api queries mpq fuel)).map
                  (fun p => p.1) :=
          List.map_congr_left (fun p hp => (hid p hp).symm)
        rw [hmm]
        exact hn
      · intro v hv
        obtain ⟨p, hp, hpe⟩ := List.mem_map.mp hv
        have hfsp := hfs p hp
        rw [hid p hp] at hfsp
        rw [← hpe]
        exact hfsp
    · exact absurd hout (by simp)
  · rfl

/-- Witness for C1: the overlap scenario instantiates the uniqueness
conclusion on a run of the pipeline. -/
theorem collection_unique_and_first_seen_witness :
    (([mkVideoData itemA, mkVideoData itemS1, mkVideoData itemB].map
        (fun v => dget v "video_id")).Nodup) :=
  (collection_unique_and_first_seen.1 overlapApi ["q1", "q2"] 2 5
    [mkVideoData itemA, mkVideoData itemS1, mkVideoData itemB] rfl).1

/-- C5: when the pagination loop of search_youtube_query terminates
normally against an API that honors the requested page size, the function
returns at most max_results records as a list, every page request asks
for between 1 and 50 items (so requests stop as soon as the running
total reaches max_results), and the no-token exit ends the run. -/
theorem searchOne_bounded :
    ∀ (api : SearchApi) (max_results fuel : Nat) (v : List PyDict) (rq : List Nat),
    (∀ (t : Option String) (c : Nat) (r : SearchResponse),
        api t c = .ok r → r.items.length ≤ c) →
    searchLoop api max_results fuel [] none [] = .done v rq →
    v.length ≤ max_results ∧ (∀ c ∈ rq, 1 ≤ c ∧ c ≤ 50) ∧
    search_youtube_query api max_results fuel = some (.pylist v) := by
  intro api mr fuel v rq hapi hdone
  obtain ⟨h1, h2⟩ :=
    searchLoop_bounds api mr hapi fuel [] none [] v rq (by simp) (by simp) hdone
  refine ⟨h1, h2, ?_⟩
  rw [search_youtube_query, hdone]

/-- Witness for C5: an API serving single-item pages with no token under
a request for at most five videos. -/
theorem searchOne_bounded_witness :
    ([mkVideoData itemA] : List PyDict).length ≤ 5 ∧
    search_youtube_query honestOneApi 5 3 = some (.pylist [mkVideoData itemA]) :=
  ⟨(searchOne_bounded honestOneApi 5 3 [mkVideoData itemA] [5]
      (fun t c r h => by
        simp only [honestOneApi] at h
        cases h
        by_cases hc : c = 0
        · simp [hc]
        · simp [hc]
          omega) rfl).1,
   (searchOne_bounded honestOneApi 5 3 [mkVideoData itemA] [5]
      (fun t c r h => by
        simp only [honestOneApi] at h
        cases h
        by_cases hc : c = 0
        · simp [hc]
        · simp [hc]
          omega) rfl).2.2⟩

/-- C2 records the defect: on a failing query search_youtube_query
returns the empty set literal, which is not the empty value of its
declared list type, both when the very first request raises and when a
later page raises after a partial list was accumulated (the partial list
is discarded); the other queries of the same collection run still
produce their results. -/
theorem searchOne_failure_returns_set :
    search_youtube_query alwaysRaiseApi 5 10 = some (PyValue.pyset []) ∧
    search_youtube_query secondPageRaiseApi 3 10 = some (PyValue.pyset []) ∧
    PyValue.pyset ([] : List PyDict) ≠ PyValue.pylist [] ∧
    run_collection_pipeline oneBadApi ["q1", "bad", "q2"] 1 5 =
      some [mkVideoData itemA, mkVideoData itemB] :=
  ⟨rfl, rfl, by decide, rfl⟩

/-- C8: failures never cross the pipeline boundaries as exceptions: an
exception raised inside the pagination loop leaves search_youtube_query
as a normal (empty) value, the collection pipeline returns a list
whenever every query terminates, and the analysis pipeline returns a
normal result list for every input of genuine video records, whatever
the oracle does. -/
theorem no_exception_crosses_pipeline_boundary :
    (∀ (api : SearchApi) (max_results fuel : Nat) (e : String) (rq : List Nat),
      searchLoop api max_results fuel [] none [] = .raised e rq →
      search_youtube_query api max_results fuel = some (.pyset [])) ∧
    (∀ (api : String → SearchApi) (queries : List String) (mpq fuel : Nat),
      (∀ q ∈ queries, (search_youtube_query (api q) mpq fuel).isSome = true) →
      (run_collection_pipeline api queries mpq fuel).isSome = true) ∧
    (∀ (delay : Nat) (oracle : Nat → AnalyzeOracle) (vl : List PyDict),
      (∀ v ∈ vl, (dget v "url").isSome = true) →
      ∃ res n, run_analysis_pipeline delay oracle vl = .ok (res, n)) := by
  refine ⟨?_, ?_, ?_⟩
  · intro api mr fuel e rq h
    rw [search_youtube_query, h]
  · intro api queries mpq fuel hall
    rw [run_collection_pipeline]
    have hcond : ((queries.map
        (fun q => search_youtube_query (api q) mpq fuel)).all
          (fun r => r.isSome)) = true := by
      rw [List.all_eq_true]
      intro r hr
      obtain ⟨q, hq, hqe⟩ := List.mem_map.mp hr
      rw [← hqe]
      exact hall q hq
    rw [if_pos hcond]
    rfl
  · intro delay oracle vl hall
    exact ⟨_, _, analysisGo_ok delay oracle vl 0 [] 0 hall⟩

/-- Witness for C8: a raising search run, a collection run with one bad
query, and the three-record analysis run. -/
theorem no_exception_crosses_pipeline_boundary_witness :
    search_youtube_query alwaysRaiseApi 7 10 = some (PyValue.pyset []) ∧
    (run_collection_pipeline oneBadApi ["q1", "bad", "q2"] 1 5).isSome = true ∧
    ∃ res n, run_analysis_pipeline 10 threeRecOracle [recA, recB, recC]
      = .ok (res, n) :=
  ⟨no_exception_crosses_pipeline_boundary.1 alwaysRaiseApi 7 10
      "HttpError 403 quota exceeded" [7] rfl,
   no_exception_crosses_pipeline_boundary.2.1 oneBadApi ["q1", "bad", "q2"] 1 5
      (by decide),
   no_exception_crosses_pipeline_boundary.2.2 10 threeRecOracle
      [recA, recB, recC] (by decide)⟩

end Repo
